import Mathlib

/-!
Shallow embedding (in Lean 4) of the tool-call logging and
response-dispatch shim of `src/main.py` (an HTTP front-end over an
agent library), together with proofs of the spec's claims about it.

Python strings are modelled as Lean `String` (or `List Char` where a
character count matters); Python `None`, strings and numbers are
collected in `PyVal`; Python dictionaries are modelled as association
lists; a Python call that may raise is modelled as `Except`.
-/

namespace IceCreamShop

/-- Python values that flow through the shim: `None`, strings, and
integers (enough to express truthiness distinctions the code relies
on).  `getattr(x, a, None)` on an absent attribute yields `PyVal.none`. -/
inductive PyVal where
  | none
  | str (s : String)
  | int (n : Int)
deriving DecidableEq, Repr

/-- Python truthiness for the values of `PyVal`: `None` is falsy, a
string is truthy iff non-empty, an integer is truthy iff non-zero. -/
def isTruthy : PyVal → Bool
  | PyVal.none => false
  | PyVal.str s => !(s == "")
  | PyVal.int n => !(n == 0)

/-- Python `a or b`: `a` when `a` is truthy, else `b`. -/
def pyOr (a b : PyVal) : PyVal := if isTruthy a then a else b

/-- Python `str(v)` for the values of `PyVal`. -/
def pyStr : PyVal → String
  | PyVal.none => "None"
  | PyVal.str s => s
  | PyVal.int n => toString n

/-- Python `repr(v)` for the values of `PyVal`, as a character list
(the code slices the repr by characters).  String escaping is not
modelled: a string's repr is the string surrounded by single quotes. -/
def pyRepr : PyVal → List Char
  | PyVal.none => "None".toList
  | PyVal.str s => Char.ofNat 39 :: (s.toList ++ [Char.ofNat 39])
  | PyVal.int n => (toString n).toList

/-- Keyword-argument mapping passed to a tool call (`arguments: Dict[str, Any]`). -/
abbrev Args := List (String × PyVal)

/-- One tool-call record as built by `capture_tool_calls`
(src/main.py lines 112-117 and 131): a dict with keys `time`, `name`,
`args`, and exactly one of `result_preview` / `error`.  An `Option`
field set to `Option.none` models the key being absent from the dict.
The preview is a character list because the source truncates it by
character count. -/
structure ToolEntry where
  time : String
  name : String
  args : Args
  result_preview : Option (List Char)
  error : Option String
deriving DecidableEq, Repr

/-- The process-wide `TOOL_LOGS: Dict[str, List[Dict[str, Any]]]`
(src/main.py line 71), modelled as an association list from session id
to the list of records.  The lock only serializes the three accessors,
which are modelled as atomic pure functions on this state. -/
abbrev Logs := List (String × List ToolEntry)

/-- Python dict assignment `d[k] = v`: replace the binding if the key
is present, otherwise add it. -/
def dictSet : Logs → String → List ToolEntry → Logs
  | [], k, v => [(k, v)]
  | (k', v') :: rest, k, v =>
      if k' = k then (k, v) :: rest else (k', v') :: dictSet rest k v

/-- Python `d.get(k, [])`: the bound value if the key is present,
otherwise the empty list. -/
def dictGet : Logs → String → List ToolEntry
  | [], _ => []
  | (k', v) :: rest, k => if k' = k then v else dictGet rest k

/-- `_logs_reset` (src/main.py lines 75-77): `TOOL_LOGS[session_id] = []`. -/
def _logs_reset (st : Logs) (session_id : String) : Logs :=
  dictSet st session_id []

/-- `_logs_append` (src/main.py lines 80-82):
`TOOL_LOGS.setdefault(session_id, []).append(entry)` — the binding
becomes the previous list (empty when absent) with the entry appended. -/
def _logs_append (st : Logs) (session_id : String) (entry : ToolEntry) : Logs :=
  dictSet st session_id (dictGet st session_id ++ [entry])

/-- `_logs_get` (src/main.py lines 85-87):
`list(TOOL_LOGS.get(session_id, []))` — a copy of the current list, or
the empty list when the key is absent. -/
def _logs_get (st : Logs) (session_id : String) : List ToolEntry :=
  dictGet st session_id

/-- Repeated `_logs_append` of a list of records to one session id, in
order (as the tool hook does during one agent execution). -/
def logsAppendAll : Logs → String → List ToolEntry → Logs
  | st, _, [] => st
  | st, sid, e :: es => logsAppendAll (_logs_append st sid e) sid es

/-- Lookup in a string-valued Python dict. -/
def strLookup : List (String × String) → String → Option String
  | [], _ => Option.none
  | (k', v) :: rest, k => if k' = k then some v else strLookup rest k

/-- Log-key resolution in `capture_tool_calls` (src/main.py line 108):
`(getattr(agent, "context", {}) or {}).get("_log_key", "default")`.
`Option.none` models the `context` attribute being absent or `None`
(both yield the empty dict after `or {}`); an empty dict is falsy and
also resolves to the default key. -/
def resolveSid : Option (List (String × String)) → String
  | Option.none => "default"
  | some [] => "default"
  | some (p :: rest) => (strLookup (p :: rest) "_log_key").getD "default"

/-- The record built by `capture_tool_calls` for one tool invocation
(src/main.py lines 112-117 on success, line 131 on failure).  The
result type `ρ` and exception type `ε` are abstract, with their
`repr` stringifications passed in (`reprFn`, `errRepr`); the success
preview is `repr(result)[:800]`. -/
def mkToolEntry {ρ ε : Type} (reprFn : ρ → List Char) (errRepr : ε → String)
    (ts fname : String) (arguments : Args) (call : Except ε ρ) : ToolEntry :=
  match call with
  | Except.ok r =>
      { time := ts, name := fname, args := arguments,
        result_preview := some ((reprFn r).take 800), error := Option.none }
  | Except.error e =>
      { time := ts, name := fname, args := arguments,
        result_preview := Option.none, error := some (errRepr e) }

/-- `capture_tool_calls` (src/main.py lines 105-141): resolve the log
key from the agent context, run the callable (its outcome is the
`call` argument: `Except.error` models it raising), append the
corresponding record to the log store, and pass the outcome through —
returning the result unchanged on success, re-raising on failure.
Console output under the live-logging flag has no effect on the state
or the outcome and is not modelled. -/
def capture_tool_calls {ρ ε : Type} (reprFn : ρ → List Char) (errRepr : ε → String)
    (st : Logs) (context : Option (List (String × String)))
    (ts fname : String) (arguments : Args) (call : Except ε ρ) :
    Logs × Except ε ρ :=
  let sid := resolveSid context
  match call with
  | Except.ok r =>
      (_logs_append st sid (mkToolEntry reprFn errRepr ts fname arguments (Except.ok r)),
        Except.ok r)
  | Except.error e =>
      (_logs_append st sid (mkToolEntry reprFn errRepr ts fname arguments (Except.error e)),
        Except.error e)

/-- Result shape of a candidate response method: a Python string
(`isinstance(result, str)`), or an object probed for `content` and
`text` attributes.  An attribute field equal to `Option.none` models
the attribute being absent; a present attribute may hold `PyVal.none`. -/
structure ResObj where
  content : Option PyVal
  text : Option PyVal
deriving DecidableEq, Repr

/-- A candidate method's return value, as `run_agent` inspects it. -/
inductive MethodResult where
  | pystr (s : String)
  | obj (o : ResObj)
deriving DecidableEq, Repr

/-- Answer extraction from one candidate result (src/main.py lines
165-169): a string is returned as is; otherwise
`text = getattr(result, "content", None) or getattr(result, "text", None)`
and `str(text)` is returned when `text is not None`; `Option.none`
means the loop falls through to the next candidate. -/
def extractAnswer : MethodResult → Option String
  | MethodResult.pystr s => some s
  | MethodResult.obj o =>
      let t := pyOr (o.content.getD PyVal.none) (o.text.getD PyVal.none)
      if t = PyVal.none then Option.none else some (pyStr t)

/-- The response surface of the agent object as `run_agent` sees it
for one fixed message and session id.  Each candidate field models
`getattr(agent, name, None)` plus the `callable` test: `Option.none`
when absent or not callable, otherwise the outcome of invoking it
(`Except.error` when it raises).  `print_response_out` is what the
`print_response` fallback writes to the redirected stdout
(`Except.error` when the fallback itself raises). -/
structure AgentModel where
  create_response : Option (Except String MethodResult)
  get_response : Option (Except String MethodResult)
  run : Option (Except String MethodResult)
  respond : Option (Except String MethodResult)
  print_response_out : Except String String

/-- The fixed ordered candidate list of `run_agent` (src/main.py line 156). -/
def candidates (a : AgentModel) : List (Option (Except String MethodResult)) :=
  [a.create_response, a.get_response, a.run, a.respond]

/-- The probing loop of `run_agent` (src/main.py lines 156-174):
candidates are tried in order; absent or uncallable ones are skipped; a
raising invocation is swallowed (`except Exception`) and the loop
continues; the first usable extraction is returned. -/
def probeMethods : List (Option (Except String MethodResult)) → Option String
  | [] => Option.none
  | Option.none :: rest => probeMethods rest
  | some (Except.error _) :: rest => probeMethods rest
  | some (Except.ok r) :: rest =>
      match extractAnswer r with
      | some s => some s
      | Option.none => probeMethods rest

/-- Characters stripped by Python `str.strip()` (the ASCII whitespace
set; exotic Unicode space characters are not modelled). -/
def isPyWS (c : Char) : Bool :=
  c == ' ' || c == '\t' || c == '\n' || c == '\r' ||
    Char.toNat c == 11 || Char.toNat c == 12

/-- Python `s.strip()`: drop leading and trailing whitespace. -/
def pyStrip (s : String) : String :=
  (((s.toList.dropWhile isPyWS).reverse.dropWhile isPyWS).reverse).asString

/-- The value computation of `run_agent` (src/main.py lines 152-182):
the first usable candidate answer, else the captured stdout of the
`print_response` fallback stripped of surrounding whitespace
(`buf.getvalue().strip()`); `Except.error` only when the fallback
itself raises. -/
def run_agent_answer (a : AgentModel) : Except String String :=
  match probeMethods (candidates a) with
  | some s => Except.ok s
  | Option.none =>
      match a.print_response_out with
      | Except.ok out => Except.ok (pyStrip out)
      | Except.error e => Except.error e

/-- ASCII lowercasing of one character (Python `str.lower()` restricted
to ASCII; the tokens compared against are all ASCII). -/
def asciiLowerChar (c : Char) : Char :=
  if 65 ≤ c.toNat && c.toNat ≤ 90 then Char.ofNat (c.toNat + 32) else c

/-- ASCII lowercasing of a string. -/
def asciiLower (s : String) : String := (s.toList.map asciiLowerChar).asString

/-- The truthy tokens of `env_flag` (src/main.py line 41). -/
def truthyTokens : List String := ["1", "true", "t", "yes", "y", "on"]

/-- `env_flag` (src/main.py lines 38-44): `val` is `os.getenv(name)`
(`Option.none` when the variable is unset).  When set, the value
stripped and lowercased is tested for membership in the truthy-token
set; when unset the supplied default is returned. -/
def env_flag (val : Option String) (default : Bool) : Bool :=
  match val with
  | Option.none => default
  | some v => truthyTokens.contains (asciiLower (pyStrip v))

/-- One hex digit as produced by Python's `uuid4().hex` (lowercase). -/
def pyHexDigit (n : Nat) : Char :=
  if n < 10 then Char.ofNat (48 + n) else Char.ofNat (87 + n)

/-- `uuid.uuid4().hex[:8]` (src/main.py line 149): the UUID's 32
nibbles are abstracted as a list of naturals below 16; the suffix is
the first 8 of them rendered as lowercase hex digits. -/
def genSuffix (nibbles : List Nat) : List Char :=
  (nibbles.take 8).map pyHexDigit

/-- The lowercase hexadecimal alphabet. -/
def lowercaseHexChars : List Char := "0123456789abcdef".toList

/-- `choose_session_id` (src/main.py lines 146-149):
`env_sid or req_sid or f"{agent.user_id}-{uuid.uuid4().hex[:8]}"`, with
`env_sid = (os.getenv("SESSION_ID") or "").strip()` and
`req_sid = (requested or "").strip()`.  `envSid` models the
environment variable (`Option.none` = unset), `requested` the caller's
session id, `nibbles` the fresh UUID's nibbles. -/
def choose_session_id (envSid : Option String) (user_id : String)
    (requested : Option String) (nibbles : List Nat) : String :=
  let env_sid := pyStrip (envSid.getD "")
  let req_sid := pyStrip (requested.getD "")
  if env_sid ≠ "" then env_sid
  else if req_sid ≠ "" then req_sid
  else user_id ++ "-" ++ (genSuffix nibbles).asString

/-- One tool invocation occurring during an agent execution, as the
hook observes it: timestamp, tool name, arguments, and the outcome of
the underlying callable (result values are `PyVal`; a raised exception
is modelled by its repr string). -/
structure ToolInv where
  ts : String
  fname : String
  arguments : Args
  outcome : Except String PyVal
deriving Repr

/-- The context installed by `run_agent` before running
(src/main.py line 153): `agent.context = {"_log_key": session_id}`. -/
def runContext (session_id : String) : Option (List (String × String)) :=
  some [("_log_key", session_id)]

/-- The record the hook appends for one invocation during a run
(instantiating the abstract stringifiers with the concrete `PyVal`
repr and the identity on exception-repr strings). -/
def entryOfInv (i : ToolInv) : ToolEntry :=
  mkToolEntry pyRepr (fun s => s) i.ts i.fname i.arguments i.outcome

/-- Sequential passage of an execution's tool invocations through
`capture_tool_calls`, threading the log store. -/
def runHooks (st : Logs) (session_id : String) : List ToolInv → Logs
  | [] => st
  | i :: rest =>
      runHooks
        (capture_tool_calls pyRepr (fun s => s) st (runContext session_id)
          i.ts i.fname i.arguments i.outcome).1
        session_id rest

/-- Effect of one `run_agent` execution on the log store
(src/main.py lines 152-154 plus the hook): the context is set to the
session id, the session's log is reset, and then every tool invocation
the agent makes during the run passes through `capture_tool_calls`. -/
def run_agent_logs (st : Logs) (session_id : String) (invs : List ToolInv) : Logs :=
  runHooks (_logs_reset st session_id) session_id invs

/-- The `tool_calls` sequence the `/api/chat` handler returns for one
request (src/main.py line 217): the session's log read after the run. -/
def chatToolCalls (st : Logs) (session_id : String) (invs : List ToolInv) :
    List ToolEntry :=
  _logs_get (run_agent_logs st session_id invs) session_id

/-- HTTP response of `POST /api/chat` (src/main.py lines 213-228).
`Option.none` models a key absent from the JSON body. -/
structure ChatResponse where
  status : Nat
  session_id : String
  answer : Option String
  error : Option String
  tool_calls : Option (List ToolEntry)
deriving DecidableEq, Repr

/-- The `/api/chat` handler body after session-id resolution
(src/main.py lines 210-228).  `outcome` is the result of the `try`
block up to the response construction (`run_agent` followed by
`print_tool_summary`): on success the answer string and the log state
after the run; `Except.error` carries the message of an exception
escaping either of them. -/
def chat (session_id : String) (outcome : Except String (String × Logs)) :
    ChatResponse :=
  match outcome with
  | Except.ok (answer, st') =>
      { status := 200, session_id := session_id, answer := some answer,
        error := Option.none, tool_calls := some (_logs_get st' session_id) }
  | Except.error _ =>
      { status := 500, session_id := session_id, answer := Option.none,
        error := some "Internal error while generating response.",
        tool_calls := Option.none }

/-- Agent used as concrete counterexample input for the claim about
`content` extraction: its first candidate method returns an object
whose `content` attribute is present and non-null but is the empty
string (falsy), with no `text` attribute. -/
def cexC1Agent : AgentModel :=
  { create_response :=
      some (Except.ok (MethodResult.obj
        { content := some (PyVal.str ""), text := Option.none })),
    get_response := Option.none,
    run := Option.none,
    respond := Option.none,
    print_response_out := Except.ok "FALLBACK" }

/-- Agent used as concrete input for a probing-order check: its first
candidate raises, its second returns an object with a truthy `content`. -/
def wC1Agent : AgentModel :=
  { create_response := some (Except.error "boom"),
    get_response :=
      some (Except.ok (MethodResult.obj
        { content := some (PyVal.str "the answer"), text := Option.none })),
    run := Option.none,
    respond := Option.none,
    print_response_out := Except.ok "" }

/-- Agent used as concrete input for the fallback path: no candidate
yields a usable result (one raises, the rest are absent), and the
fallback prints an answer surrounded by whitespace. -/
def wC4Agent : AgentModel :=
  { create_response := Option.none,
    get_response := some (Except.error "boom"),
    run := Option.none,
    respond := Option.none,
    print_response_out := Except.ok "  final answer  " }

/-- Sample record (concrete inputs for the log-store checks). -/
def eA : ToolEntry :=
  { time := "09:00:00", name := "tool_a", args := [],
    result_preview := Option.none, error := Option.none }

/-- Second sample record. -/
def eB : ToolEntry :=
  { time := "09:00:05", name := "tool_b", args := [],
    result_preview := Option.none, error := Option.none }

/-- Sample log store holding a record under another session id. -/
def demoSt : Logs := [("other", [eA])]

/-- Sample succeeding tool invocation. -/
def invA : ToolInv :=
  { ts := "09:00:00", fname := "tool_a", arguments := [],
    outcome := Except.ok (PyVal.str "r1") }

/-- Sample failing tool invocation. -/
def invB : ToolInv :=
  { ts := "09:00:05", fname := "tool_b", arguments := [],
    outcome := Except.error "boom" }

theorem dictGet_dictSet_self (st : Logs) (k : String) (v : List ToolEntry) :
    dictGet (dictSet st k v) k = v := by
  induction st with
  | nil => simp [dictSet, dictGet]
  | cons p rest ih =>
      obtain ⟨k', v'⟩ := p
      by_cases h : k' = k
      · simp [dictSet, dictGet, h]
      · simp [dictSet, dictGet, h, ih]

theorem dictGet_dictSet_ne (st : Logs) (k t : String) (v : List ToolEntry)
    (h : t ≠ k) : dictGet (dictSet st k v) t = dictGet st t := by
  induction st with
  | nil => simp [dictSet, dictGet, Ne.symm h]
  | cons p rest ih =>
      obtain ⟨k', v'⟩ := p
      by_cases hk : k' = k
      · subst hk
        simp [dictSet, dictGet, Ne.symm h]
      · by_cases ht : k' = t
        · subst ht
          simp [dictSet, dictGet, hk, ih]
        · simp [dictSet, dictGet, hk, ht, ih]

theorem logs_get_append_self (st : Logs) (sid : String) (e : ToolEntry) :
    _logs_get (_logs_append st sid e) sid = _logs_get st sid ++ [e] := by
  simp [_logs_get, _logs_append, dictGet_dictSet_self]

theorem logs_get_append_ne (st : Logs) (sid t : String) (e : ToolEntry)
    (h : t ≠ sid) : _logs_get (_logs_append st sid e) t = _logs_get st t := by
  simp [_logs_get, _logs_append, dictGet_dictSet_ne st sid t _ h]

theorem logs_get_appendAll_self (es : List ToolEntry) (st : Logs) (sid : String) :
    _logs_get (logsAppendAll st sid es) sid = _logs_get st sid ++ es := by
  induction es generalizing st with
  | nil => simp [logsAppendAll]
  | cons e es ih =>
      simp [logsAppendAll, ih, logs_get_append_self, List.append_assoc]

theorem logs_get_appendAll_ne (es : List ToolEntry) (st : Logs) (sid t : String)
    (h : t ≠ sid) : _logs_get (logsAppendAll st sid es) t = _logs_get st t := by
  induction es generalizing st with
  | nil => simp [logsAppendAll]
  | cons e es ih =>
      simp [logsAppendAll, ih, logs_get_append_ne st sid t e h]

theorem capture_fst {ρ ε : Type} (reprFn : ρ → List Char) (errRepr : ε → String)
    (st : Logs) (context : Option (List (String × String)))
    (ts fname : String) (arguments : Args) (call : Except ε ρ) :
    (capture_tool_calls reprFn errRepr st context ts fname arguments call).1 =
      _logs_append st (resolveSid context)
        (mkToolEntry reprFn errRepr ts fname arguments call) := by
  cases call <;> rfl

theorem resolveSid_runContext (session_id : String) :
    resolveSid (runContext session_id) = session_id := rfl

theorem runHooks_eq_appendAll (session_id : String) (invs : List ToolInv) (st : Logs) :
    runHooks st session_id invs =
      logsAppendAll st session_id (invs.map entryOfInv) := by
  induction invs generalizing st with
  | nil => rfl
  | cons i rest ih =>
      simp only [runHooks, List.map_cons, logsAppendAll, capture_fst,
        resolveSid_runContext, entryOfInv, ih]

theorem probeMethods_skip (l : List (Option (Except String MethodResult)))
    (pre : List (Option (Except String MethodResult)))
    (hpre : ∀ o ∈ pre, o = Option.none ∨ ∃ e, o = some (Except.error e)) :
    probeMethods (pre ++ l) = probeMethods l := by
  induction pre with
  | nil => simp
  | cons o rest ih =>
      have hrest : ∀ x ∈ rest, x = Option.none ∨ ∃ e, x = some (Except.error e) :=
        fun x hx => hpre x (List.mem_cons_of_mem o hx)
      rcases hpre o (List.mem_cons_self o rest) with h | ⟨e, h⟩ <;>
        subst h <;> simpa [probeMethods] using ih hrest

theorem probeMethods_cons_ok (r : MethodResult)
    (rest : List (Option (Except String MethodResult))) (s : String)
    (h : extractAnswer r = some s) :
    probeMethods (some (Except.ok r) :: rest) = some s := by
  simp [probeMethods, h]

theorem run_agent_answer_of_probe (a : AgentModel) (s : String)
    (h : probeMethods (candidates a) = some s) :
    run_agent_answer a = Except.ok s := by
  simp [run_agent_answer, h]

theorem extractAnswer_content_truthy (o : ResObj) (c : PyVal)
    (hc : o.content = some c) (ht : isTruthy c = true) :
    extractAnswer (MethodResult.obj o) = some (pyStr c) := by
  have hne : c ≠ PyVal.none := by
    intro h
    subst h
    simp [isTruthy] at ht
  simp [extractAnswer, hc, pyOr, ht, hne]

theorem extractAnswer_text_of_content_falsy (o : ResObj) (t : PyVal)
    (hc : isTruthy (o.content.getD PyVal.none) = false)
    (ht : o.text = some t) (hne : t ≠ PyVal.none) :
    extractAnswer (MethodResult.obj o) = some (pyStr t) := by
  simp [extractAnswer, pyOr, hc, ht, hne]

theorem pyHexDigit_mem (n : Nat) (h : n < 16) :
    pyHexDigit n ∈ lowercaseHexChars := by
  interval_cases n <;> decide

/-- C5: for every session id, `_logs_get` immediately after
`_logs_reset` on that id returns the empty sequence; and `_logs_get`
on the initial store (where the session id has never been reset or
appended to) also returns the empty sequence — a value, never an
error. -/
theorem logs_reset_then_get_empty (st : Logs) (sid : String) :
    _logs_get (_logs_reset st sid) sid = [] ∧ _logs_get ([] : Logs) sid = [] :=
  ⟨by simp [_logs_get, _logs_reset, dictGet_dictSet_self], rfl⟩

/-- C6: starting from a reset, `_logs_get` returns exactly the records
appended via `_logs_append`, in append order; and the reset and the
appends on one session id leave every other session id's log
unchanged. -/
theorem logs_append_order (st : Logs) (sid : String) (es : List ToolEntry) :
    _logs_get (logsAppendAll (_logs_reset st sid) sid es) sid = es ∧
    (∀ t, t ≠ sid →
      _logs_get (logsAppendAll (_logs_reset st sid) sid es) t = _logs_get st t) := by
  constructor
  · rw [logs_get_appendAll_self]
    simp [_logs_get, _logs_reset, dictGet_dictSet_self]
  · intro t ht
    rw [logs_get_appendAll_ne es _ sid t ht]
    simp [_logs_get, _logs_reset, dictGet_dictSet_ne st sid t [] ht]

/-- C6 witness: two records appended to session `s1` after a reset
come back in order, and the log of session `other` is untouched. -/
theorem logs_append_order_witness :
    _logs_get (logsAppendAll (_logs_reset demoSt "s1") "s1" [eA, eB]) "s1" = [eA, eB] ∧
    _logs_get (logsAppendAll (_logs_reset demoSt "s1") "s1" [eA, eB]) "other" =
      _logs_get demoSt "other" :=
  ⟨(logs_append_order demoSt "s1" [eA, eB]).1,
    (logs_append_order demoSt "s1" [eA, eB]).2 "other" (by decide)⟩

/-- C2: the record appended by `capture_tool_calls` carries `time`,
`name` and `args`; on normal return it carries a `result_preview` of
at most 800 characters and no `error` field; on a raise it carries an
`error` field holding the exception's string representation and no
`result_preview` field. -/
theorem capture_record_fields {ρ ε : Type} (reprFn : ρ → List Char)
    (errRepr : ε → String) (st : Logs) (context : Option (List (String × String)))
    (ts fname : String) (arguments : Args) (call : Except ε ρ) :
    ∃ entry,
      _logs_get (capture_tool_calls reprFn errRepr st context ts fname arguments call).1
          (resolveSid context) =
        _logs_get st (resolveSid context) ++ [entry] ∧
      (∀ r, call = Except.ok r →
        entry.time = ts ∧ entry.name = fname ∧ entry.args = arguments ∧
        entry.error = Option.none ∧
        ∃ p, entry.result_preview = some p ∧ p.length ≤ 800) ∧
      (∀ e, call = Except.error e →
        entry.time = ts ∧ entry.name = fname ∧ entry.args = arguments ∧
        entry.result_preview = Option.none ∧ entry.error = some (errRepr e)) := by
  refine ⟨mkToolEntry reprFn errRepr ts fname arguments call, ?_, ?_, ?_⟩
  · rw [capture_fst]
    exact logs_get_append_self st (resolveSid context) _
  · rintro r rfl
    refine ⟨rfl, rfl, rfl, rfl, (reprFn r).take 800, rfl, ?_⟩
    rw [List.length_take]
    exact min_le_left _ _
  · rintro e rfl
    exact ⟨rfl, rfl, rfl, rfl, rfl⟩

/-- C2 witness: a concrete succeeding tool call appends one record
with no error field and a preview of at most 800 characters. -/
theorem capture_record_fields_witness :
    ∃ entry,
      _logs_get (capture_tool_calls pyRepr (fun s => s) [] (runContext "s1")
          "12:00:00" "list_tables" [] (Except.ok (PyVal.str "done"))).1
          (resolveSid (runContext "s1")) =
        _logs_get [] (resolveSid (runContext "s1")) ++ [entry] ∧
      entry.error = Option.none ∧
      ∃ p, entry.result_preview = some p ∧ p.length ≤ 800 := by
  obtain ⟨entry, hlog, hok, -⟩ :=
    capture_record_fields pyRepr (fun s => s) [] (runContext "s1")
      "12:00:00" "list_tables" [] (Except.ok (PyVal.str "done"))
  obtain ⟨-, -, -, herr, hp⟩ := hok (PyVal.str "done") rfl
  exact ⟨entry, hlog, herr, hp⟩

/-- C3: `capture_tool_calls` is transparent: it returns the callable's
outcome unchanged (the result on success, the re-raised original
exception on failure, never a substitute), and its only state effect
is appending exactly one record to the resolved session's log. -/
theorem capture_transparent {ρ ε : Type} (reprFn : ρ → List Char)
    (errRepr : ε → String) (st : Logs) (context : Option (List (String × String)))
    (ts fname : String) (arguments : Args) (call : Except ε ρ) :
    (capture_tool_calls reprFn errRepr st context ts fname arguments call).2 = call ∧
    (capture_tool_calls reprFn errRepr st context ts fname arguments call).1 =
      _logs_append st (resolveSid context)
        (mkToolEntry reprFn errRepr ts fname arguments call) := by
  cases call <;> exact ⟨rfl, rfl⟩

/-- C4: `run_agent` propagates an exception only when the final
`print_response` fallback itself raises — a raising probed candidate
never makes the dispatcher raise — and when the fallback path is taken
and succeeds, the answer is the captured stdout stripped of
surrounding whitespace. -/
theorem run_agent_error_only_fallback (a : AgentModel) :
    (∀ e, run_agent_answer a = Except.error e →
      a.print_response_out = Except.error e ∧
      probeMethods (candidates a) = Option.none) ∧
    (∀ out, probeMethods (candidates a) = Option.none →
      a.print_response_out = Except.ok out →
      run_agent_answer a = Except.ok (pyStrip out)) := by
  constructor
  · intro e he
    unfold run_agent_answer at he
    cases hp : probeMethods (candidates a) with
    | some s => rw [hp] at he; exact absurd he (by simp)
    | none =>
        rw [hp] at he
        cases hf : a.print_response_out with
        | ok out => rw [hf] at he; exact absurd he (by simp)
        | error e' =>
            rw [hf] at he
            injection he with h
            exact ⟨by rw [h], rfl⟩
  · intro out hp hf
    unfold run_agent_answer
    rw [hp, hf]

/-- C4 witness: with one raising candidate, the others absent, and a
fallback printing a padded answer, the dispatcher returns the captured
output stripped. -/
theorem run_agent_error_only_fallback_witness :
    run_agent_answer wC4Agent = Except.ok (pyStrip "  final answer  ") :=
  (run_agent_error_only_fallback wC4Agent).2 "  final answer  " rfl rfl

/-- C1 counterexample: on `cexC1Agent` the first candidate method is
present, callable and does not raise, and its result's `content`
attribute is present and non-null (the empty string); yet the
dispatcher does not return that stringified content — the empty string
is falsy, so the code falls through to `text` and then to the
fallback, returning the captured output instead. -/
theorem run_agent_content_nonnull_cex :
    cexC1Agent.create_response =
      some (Except.ok (MethodResult.obj
        { content := some (PyVal.str ""), text := Option.none })) ∧
    some (PyVal.str "") ≠ (some PyVal.none : Option PyVal) ∧
    pyStr (PyVal.str "") = "" ∧
    run_agent_answer cexC1Agent = Except.ok "FALLBACK" ∧
    ("FALLBACK" : String) ≠ "" :=
  ⟨rfl, by decide, rfl, rfl, by decide⟩

/-- C1 (amended): for the first candidate method present and callable
whose invocation does not raise — all earlier entries of the candidate
list being absent, uncallable, or raising — a string result is
returned as is; a `content` attribute that is present and truthy is
stringified and returned; and `text` is consulted whenever `content`
is absent, null, or otherwise falsy (Python truthiness, not mere
non-nullness, selects between the two), the stringified `text` being
returned when it is non-null. -/
theorem run_agent_first_usable_amended (a : AgentModel)
    (pre post : List (Option (Except String MethodResult))) (r : MethodResult)
    (hc : candidates a = pre ++ some (Except.ok r) :: post)
    (hpre : ∀ o ∈ pre, o = Option.none ∨ ∃ e, o = some (Except.error e)) :
    (∀ s, r = MethodResult.pystr s → run_agent_answer a = Except.ok s) ∧
    (∀ o c, r = MethodResult.obj o → o.content = some c → isTruthy c = true →
      run_agent_answer a = Except.ok (pyStr c)) ∧
    (∀ o t, r = MethodResult.obj o →
      isTruthy (o.content.getD PyVal.none) = false →
      o.text = some t → t ≠ PyVal.none →
      run_agent_answer a = Except.ok (pyStr t)) := by
  have hskip : probeMethods (candidates a) =
      probeMethods (some (Except.ok r) :: post) := by
    rw [hc]
    exact probeMethods_skip _ pre hpre
  refine ⟨?_, ?_, ?_⟩
  · rintro s rfl
    exact run_agent_answer_of_probe a s (hskip.trans (probeMethods_cons_ok _ post s rfl))
  · rintro o c rfl hcontent htruthy
    exact run_agent_answer_of_probe a (pyStr c)
      (hskip.trans (probeMethods_cons_ok _ post (pyStr c)
        (extractAnswer_content_truthy o c hcontent htruthy)))
  · rintro o t rfl hfalsy htext hne
    exact run_agent_answer_of_probe a (pyStr t)
      (hskip.trans (probeMethods_cons_ok _ post (pyStr t)
        (extractAnswer_text_of_content_falsy o t hfalsy htext hne)))

/-- C1 witness: on an agent whose first candidate raises and whose
second returns an object with truthy `content`, the dispatcher returns
that stringified content. -/
theorem run_agent_first_usable_amended_witness :
    run_agent_answer wC1Agent = Except.ok (pyStr (PyVal.str "the answer")) := by
  have hpre : ∀ o ∈ ([some (Except.error "boom")] :
        List (Option (Except String MethodResult))),
      o = Option.none ∨ ∃ e, o = some (Except.error e) := by
    intro o ho
    rw [List.mem_singleton] at ho
    subst ho
    exact Or.inr ⟨"boom", rfl⟩
  exact (run_agent_first_usable_amended wC1Agent [some (Except.error "boom")]
    [Option.none, Option.none]
    (MethodResult.obj { content := some (PyVal.str "the answer"), text := Option.none })
    rfl hpre).2.1
    { content := some (PyVal.str "the answer"), text := Option.none }
    (PyVal.str "the answer") rfl rfl (by decide)

/-- C7: within one `run_agent` execution the session's log is reset
before any hook append, so the `tool_calls` sequence returned for the
second of two sequential requests on the same session id consists
exactly of the records of the second run — any record of the first run
that does not also occur in the second is absent from it. -/
theorem reset_before_run_isolation (st : Logs) (sid : String)
    (invs1 invs2 : List ToolInv) :
    chatToolCalls (run_agent_logs st sid invs1) sid invs2 = invs2.map entryOfInv ∧
    (∀ e, e ∈ invs1.map entryOfInv → e ∉ invs2.map entryOfInv →
      e ∉ chatToolCalls (run_agent_logs st sid invs1) sid invs2) := by
  have hmain : ∀ (st' : Logs),
      chatToolCalls st' sid invs2 = invs2.map entryOfInv := by
    intro st'
    unfold chatToolCalls run_agent_logs
    rw [runHooks_eq_appendAll, logs_get_appendAll_self]
    simp [_logs_get, _logs_reset, dictGet_dictSet_self]
  refine ⟨hmain _, ?_⟩
  intro e _ hnot2
  rw [hmain _]
  exact hnot2

/-- C7 witness: after a first request logging `tool_a`, a second
request on the same session logging only `tool_b` returns exactly the
`tool_b` record, and the `tool_a` record is not in it. -/
theorem reset_before_run_isolation_witness :
    chatToolCalls (run_agent_logs [] "s1" [invA]) "s1" [invB] = [entryOfInv invB] ∧
    entryOfInv invA ∉ chatToolCalls (run_agent_logs [] "s1" [invA]) "s1" [invB] :=
  ⟨(reset_before_run_isolation [] "s1" [invA] [invB]).1,
    (reset_before_run_isolation [] "s1" [invA] [invB]).2 (entryOfInv invA)
      (by decide) (by decide)⟩

/-- C8: when the try block of the `/api/chat` handler fails, the
endpoint answers status 500 with the session id and the fixed opaque
error string — the response is the same whatever the exception was, so
no exception detail leaks; on success it answers status 200 with the
session id, the answer, and the session's tool-call records. -/
theorem chat_boundary (session_id : String) :
    (∀ e, chat session_id (Except.error e) =
      { status := 500, session_id := session_id, answer := Option.none,
        error := some "Internal error while generating response.",
        tool_calls := Option.none }) ∧
    (∀ e e', chat session_id (Except.error e) = chat session_id (Except.error e')) ∧
    (∀ ans st', chat session_id (Except.ok (ans, st')) =
      { status := 200, session_id := session_id, answer := some ans,
        error := Option.none, tool_calls := some (_logs_get st' session_id) }) :=
  ⟨fun _ => rfl, fun _ _ => rfl, fun _ _ => rfl⟩

/-- C9 counterexample: with the variable unset and the default `True`,
`env_flag` returns `True` although the variable is not set — so
"returns True if and only if the variable is set and its value is a
truthy token" fails in its only-if direction. -/
theorem env_flag_unset_default_cex :
    env_flag Option.none true = true ∧
    ∀ v : String, (Option.none : Option String) ≠ some v :=
  ⟨rfl, fun _ h => Option.noConfusion h⟩

/-- C9 (amended): when the variable is set, `env_flag` returns `True`
iff the value, stripped and lowercased, is one of the tokens 1, true,
t, yes, y, on — any other set value yields `False` even when the
default is `True` — and the default is returned exactly when the
variable is unset. -/
theorem env_flag_amended (v : String) (d : Bool) :
    (env_flag (some v) d = true ↔ asciiLower (pyStrip v) ∈ truthyTokens) ∧
    (asciiLower (pyStrip v) ∉ truthyTokens → env_flag (some v) d = false) ∧
    env_flag Option.none d = d := by
  have hmem : env_flag (some v) d = true ↔ asciiLower (pyStrip v) ∈ truthyTokens := by
    simp [env_flag, List.elem_iff]
  refine ⟨hmem, ?_, rfl⟩
  intro hnot
  cases hb : env_flag (some v) d with
  | false => rfl
  | true => exact absurd (hmem.mp hb) hnot

/-- C9 witness: a padded uppercase truthy value parses to `True`; a
non-token value returns `False` although the default is `True`; an
unset variable returns the default. -/
theorem env_flag_amended_witness :
    env_flag (some " TRUE ") false = true ∧
    env_flag (some "maybe") true = false ∧
    env_flag Option.none true = true :=
  ⟨(env_flag_amended " TRUE " false).1.mpr (by decide),
    (env_flag_amended "maybe" true).2.1 (by decide),
    (env_flag_amended "maybe" true).2.2⟩

/-- C10: `choose_session_id` prefers the non-empty stripped
environment override, then the non-empty stripped caller-supplied id
(a whitespace-only one strips to empty and is treated as absent), and
otherwise generates `user_id ++ "-" ++ hex`, where the suffix built
from a fresh UUID's nibbles has exactly 8 characters, all lowercase
hexadecimal. -/
theorem choose_session_id_spec (envSid requested : Option String)
    (user_id : String) (nibbles : List Nat) :
    (pyStrip (envSid.getD "") ≠ "" →
      choose_session_id envSid user_id requested nibbles = pyStrip (envSid.getD "")) ∧
    (pyStrip (envSid.getD "") = "" → pyStrip (requested.getD "") ≠ "" →
      choose_session_id envSid user_id requested nibbles =
        pyStrip (requested.getD "")) ∧
    (pyStrip (envSid.getD "") = "" → pyStrip (requested.getD "") = "" →
      choose_session_id envSid user_id requested nibbles =
        user_id ++ "-" ++ (genSuffix nibbles).asString) ∧
    (8 ≤ nibbles.length → (genSuffix nibbles).length = 8) ∧
    ((∀ n ∈ nibbles, n < 16) →
      ∀ c ∈ genSuffix nibbles, c ∈ lowercaseHexChars) := by
  refine ⟨?_, ?_, ?_, ?_, ?_⟩
  · intro h
    simp [choose_session_id, h]
  · intro h1 h2
    simp [choose_session_id, h1, h2]
  · intro h1 h2
    simp [choose_session_id, h1, h2]
  · intro hlen
    simp [genSuffix, List.length_map, List.length_take]
    omega
  · intro hn c hc
    simp only [genSuffix, List.mem_map] at hc
    obtain ⟨n, hmem, rfl⟩ := hc
    exact pyHexDigit_mem n (hn n (List.take_subset 8 nibbles hmem))

/-- C10 witness: a padded environment override wins over a caller id;
with no override a padded caller id is stripped and used; a
whitespace-only caller id triggers generation; a 9-nibble UUID prefix
yields an 8-character suffix. -/
theorem choose_session_id_spec_witness :
    choose_session_id (some " env1 ") "sky" (some "req") [] = pyStrip " env1 " ∧
    choose_session_id Option.none "sky" (some " s1 ") [] = pyStrip " s1 " ∧
    choose_session_id Option.none "sky" (some "   ") [10, 11, 12, 13, 14, 15, 0, 1, 2] =
      "sky" ++ "-" ++ (genSuffix [10, 11, 12, 13, 14, 15, 0, 1, 2]).asString ∧
    (genSuffix [10, 11, 12, 13, 14, 15, 0, 1, 2]).length = 8 :=
  ⟨(choose_session_id_spec (some " env1 ") (some "req") "sky" []).1 (by decide),
    (choose_session_id_spec Option.none (some " s1 ") "sky" []).2.1 (by decide) (by decide),
    (choose_session_id_spec Option.none (some "   ") "sky"
      [10, 11, 12, 13, 14, 15, 0, 1, 2]).2.2.1 (by decide) (by decide),
    (choose_session_id_spec Option.none (some "   ") "sky"
      [10, 11, 12, 13, 14, 15, 0, 1, 2]).2.2.2.1 (by decide)⟩

end IceCreamShop
